import Mathlib

/-
Verification of the habitaclia scraping pipeline.

Shallow embedding of the Python sources:
  src/habitaclia_project/src/habitaclia/scraper/core.py   (HabitacliaMultiCityScraper)
  src/habitaclia_project/src/habitaclia/data/validator.py (PropertyDataValidator)
  src/habitaclia_project/src/habitaclia/data/models.py    (Property)
  src/habitaclia_project/src/habitaclia/search/embedding_generator.py
  src/main.py                                             (HabitacliaScraperImproved)

Modelling conventions:
  - Python floats are modelled as exact rationals; the numeric literals and
    comparisons relevant here are exact at these magnitudes.
  - Python dicts with optional keys are modelled as structures of Option
    fields; a missing key and a None value are conflated, exactly as the
    validator conflates them via "field not in data or not data[field]".
  - The pandas DataFrame round trip inside clean_dataset is modelled as the
    identity on records; records always carry a url field, as produced by
    Property.to_dict, so the "url column exists" guard always holds.
  - Python string truthiness (empty string is falsy) is modelled explicitly.
-/

namespace Habitaclia

/-- The configured base URL of the scraper (core.py line 27 and main.py line 14). -/
def baseUrl : String := "https://english.habitaclia.com"

/-- Model of the Python expression range(2, max_pages + 1): the page numbers
2, 3, ..., max_pages (empty when max_pages < 2). -/
def pageNumbers (maxPages : Nat) : List Nat :=
  (List.range (maxPages - 1)).map (· + 2)

/-- Embedding of HabitacliaMultiCityScraper.get_search_urls
(core.py lines 138-162): the first URL has no page suffix, later pages are
suffixed -2 .. -max_pages; property types other than rent, homes and buy
produce the empty list. -/
def getSearchUrls (city propertyType : String) (maxPages : Nat) : List String :=
  if propertyType = "rent" then
    (baseUrl ++ "/rent-" ++ city ++ ".htm") ::
      (pageNumbers maxPages).map
        (fun page => baseUrl ++ "/rent-" ++ city ++ "-" ++ toString page ++ ".htm")
  else if propertyType = "homes" ∨ propertyType = "buy" then
    (baseUrl ++ "/homes-" ++ city ++ ".htm") ::
      (pageNumbers maxPages).map
        (fun page => baseUrl ++ "/homes-" ++ city ++ "-" ++ toString page ++ ".htm")
  else []

/-- Embedding of HabitacliaScraperImproved.get_search_urls
(main.py lines 57-83); the control flow is identical to the core scraper. -/
def getSearchUrlsImproved (city propertyType : String) (maxPages : Nat) : List String :=
  if propertyType = "rent" then
    (baseUrl ++ "/rent-" ++ city ++ ".htm") ::
      (pageNumbers maxPages).map
        (fun page => baseUrl ++ "/rent-" ++ city ++ "-" ++ toString page ++ ".htm")
  else if propertyType = "homes" ∨ propertyType = "buy" then
    (baseUrl ++ "/homes-" ++ city ++ ".htm") ::
      (pageNumbers maxPages).map
        (fun page => baseUrl ++ "/homes-" ++ city ++ "-" ++ toString page ++ ".htm")
  else []

/-- Python truthiness of an optional string: a missing key, a None value and
an empty string are all falsy. -/
def strTruthy : Option String → Bool
  | none => false
  | some s => s ≠ ""

/-- Embedding of the Property dataclass (models.py lines 6-23). url,
city_code, city_name and timestamp are mandatory strings; the extracted
attributes are optional. Floats are modelled as rationals. -/
structure Property where
  url : String
  city_code : String
  city_name : String
  timestamp : String
  title : Option String := none
  price : Option ℚ := none
  price_raw : Option String := none
  location : Option String := none
  rooms : Option Int := none
  bathrooms : Option Int := none
  area_m2 : Option Int := none
  description : Option String := none
  image_urls : List String := []
  image_count : Nat := 0
  status : String := "success"
deriving DecidableEq

/-- Embedding of Property.is_valid (models.py lines 50-57): required identity
fields truthy and at least one of title or location truthy. -/
def Property.isValid (p : Property) : Bool :=
  p.url ≠ "" && p.city_name ≠ "" && p.timestamp ≠ "" &&
    (strTruthy p.title || strTruthy p.location)

/-- Round a rational to the nearest integer, ties to even, which is the
rounding mode of the Python built-in round. -/
def roundHalfEven (q : ℚ) : ℤ :=
  if q - ⌊q⌋ < 1/2 then ⌊q⌋
  else if 1/2 < q - ⌊q⌋ then ⌊q⌋ + 1
  else if ⌊q⌋ % 2 = 0 then ⌊q⌋ else ⌊q⌋ + 1

/-- Model of the Python expression round(x, 2). -/
def roundTo2 (q : ℚ) : ℚ := (roundHalfEven (q * 100) : ℚ) / 100

/-- Embedding of Property.get_price_per_m2 (models.py lines 59-63). The
Python guard is "if self.price and self.area_m2 and self.area_m2 > 0", which
by truthiness requires the price to be present and nonzero and the area to be
present, nonzero and positive. -/
def Property.getPricePerM2 (p : Property) : Option ℚ :=
  match p.price, p.area_m2 with
  | some pr, some a =>
      if pr ≠ 0 ∧ a ≠ 0 ∧ 0 < a then some (roundTo2 (pr / (a : ℚ))) else none
  | _, _ => none

/-- Predicate written from the words of claim C10: price per square meter is
returned whenever price and area are present and the area is positive. Used
only to compare the claim against Property.getPricePerM2. -/
def specPricePerM2 (p : Property) : Option ℚ :=
  match p.price, p.area_m2 with
  | some pr, some a => if 0 < a then some (roundTo2 (pr / (a : ℚ))) else none
  | _, _ => none

/-- Predicate written from the amended words of claim C10: additionally the
price must be nonzero (Python truthiness of a float). -/
def specPricePerM2Amended (p : Property) : Option ℚ :=
  match p.price, p.area_m2 with
  | some pr, some a => if pr ≠ 0 ∧ 0 < a then some (roundTo2 (pr / (a : ℚ))) else none
  | _, _ => none

/-- Embedding of the dict shape consumed by PropertyDataValidator: every field
optional, mirroring Property.to_dict output where any value may be missing
after partial extraction. -/
structure PropRecord where
  url : Option String := none
  city_code : Option String := none
  city_name : Option String := none
  timestamp : Option String := none
  title : Option String := none
  price : Option ℚ := none
  price_raw : Option String := none
  location : Option String := none
  rooms : Option Int := none
  bathrooms : Option Int := none
  area_m2 : Option Int := none
  description : Option String := none
  image_urls : List String := []
  image_count : Option Int := none
  status : Option String := none
deriving DecidableEq

/-- Errors for the required-field loop of validate_property
(validator.py lines 30-33); required_fields = [title, url, city_name,
timestamp] (validator.py line 11). -/
def requiredFieldErrors (r : PropRecord) : List String :=
  (if strTruthy r.title then [] else ["Campo requerido faltante: title"]) ++
  (if strTruthy r.url then [] else ["Campo requerido faltante: url"]) ++
  (if strTruthy r.city_name then [] else ["Campo requerido faltante: city_name"]) ++
  (if strTruthy r.timestamp then [] else ["Campo requerido faltante: timestamp"])

/-- Errors for one numeric float field against its min and max rule
(validator.py lines 45-50). The isinstance type check of line 42 cannot fail
in the typed embedding. -/
def rangeErrors (name : String) (v lo hi : ℚ) : List String :=
  (if v < lo then [name ++ ": valor demasiado bajo"] else []) ++
  (if hi < v then [name ++ ": valor demasiado alto"] else [])

/-- Errors for one numeric integer field against its min and max rule
(validator.py lines 45-50); the rooms, bathrooms and area_m2 rules hold
Python ints, so the comparison is an integer comparison. -/
def rangeErrorsZ (name : String) (v lo hi : ℤ) : List String :=
  (if v < lo then [name ++ ": valor demasiado bajo"] else []) ++
  (if hi < v then [name ++ ": valor demasiado alto"] else [])

/-- Errors for the numeric-field loop of validate_property (validator.py
lines 36-50) with the rules of _setup_validation_rules (lines 17-24):
price in [50, 50000000], rooms in [1, 20], bathrooms in [1, 10],
area_m2 in [10, 2000]. -/
def numericFieldErrors (r : PropRecord) : List String :=
  (match r.price with | none => [] | some v => rangeErrors "price" v 50 50000000) ++
  (match r.rooms with | none => [] | some v => rangeErrorsZ "rooms" v 1 20) ++
  (match r.bathrooms with | none => [] | some v => rangeErrorsZ "bathrooms" v 1 10) ++
  (match r.area_m2 with | none => [] | some v => rangeErrorsZ "area_m2" v 10 2000)

/-- Errors for the text-field loop of validate_property (validator.py lines
53-61): title length in [10, 200], location length in [3, 100], checked only
when the field is present and truthy. -/
def textFieldErrors (r : PropRecord) : List String :=
  (match r.title with
   | some t =>
       if t ≠ "" then
         (if t.length < 10 then ["title: demasiado corto"] else []) ++
         (if 200 < t.length then ["title: demasiado largo"] else [])
       else []
   | none => []) ++
  (match r.location with
   | some t =>
       if t ≠ "" then
         (if t.length < 3 then ["location: demasiado corto"] else []) ++
         (if 100 < t.length then ["location: demasiado largo"] else [])
       else []
   | none => [])

/-- Embedding of PropertyDataValidator.validate_property (validator.py lines
26-63): the record is valid exactly when the accumulated error list is empty. -/
def validationErrors (r : PropRecord) : List String :=
  requiredFieldErrors r ++ numericFieldErrors r ++ textFieldErrors r

/-- The per-record validity predicate used by validate_dataset and
clean_dataset: validate_property returns (len(errors) == 0, errors). -/
def validateProperty (r : PropRecord) : Bool :=
  (validationErrors r).isEmpty

/-- Predicate written from the words of claim C1: required identity fields
non-empty and at least one of title and location present. Used only to
compare the claim against validateProperty. -/
def specMinimalValid (r : PropRecord) : Bool :=
  strTruthy r.url && strTruthy r.city_name && strTruthy r.timestamp &&
    (strTruthy r.title || strTruthy r.location)

/-- Worker for URL deduplication: drop a record whose url was already seen,
keep the first occurrence. -/
def dropDupGo (seen : List (Option String)) : List PropRecord → List PropRecord
  | [] => []
  | r :: rest =>
      if r.url ∈ seen then dropDupGo seen rest
      else r :: dropDupGo (r.url :: seen) rest

/-- Embedding of df.drop_duplicates(subset=[url], keep first)
(validator.py lines 140-141). -/
def dropDuplicateUrls (rs : List PropRecord) : List PropRecord :=
  dropDupGo [] rs

/-- Report returned by clean_dataset (validator.py lines 153-159). -/
structure CleaningReport where
  original_count : Nat
  after_deduplication : Nat
  after_validation : Nat
  duplicates_removed : Nat
  invalid_removed : Nat
deriving DecidableEq

/-- Embedding of PropertyDataValidator.clean_dataset (validator.py lines
134-161): drop exact URL duplicates keeping the first occurrence, then drop
records failing validate_property, and report the counts. -/
def cleanDataset (rs : List PropRecord) : List PropRecord × CleaningReport :=
  let deduped := dropDuplicateUrls rs
  let valid := deduped.filter (fun r => validateProperty r)
  (valid,
   { original_count := rs.length
     after_deduplication := deduped.length
     after_validation := valid.length
     duplicates_removed := rs.length - deduped.length
     invalid_removed := deduped.length - valid.length })

/-! Helper lemmas about the validator predicate. -/

theorem rangeErrors_eq_nil (name : String) (v lo hi : ℚ) :
    rangeErrors name v lo hi = [] ↔ lo ≤ v ∧ v ≤ hi := by
  unfold rangeErrors
  rw [List.append_eq_nil]
  constructor
  · rintro ⟨ha, hb⟩
    constructor
    · by_contra h
      rw [if_pos (lt_of_not_le h)] at ha
      exact List.cons_ne_nil _ _ ha
    · by_contra h
      rw [if_pos (lt_of_not_le h)] at hb
      exact List.cons_ne_nil _ _ hb
  · rintro ⟨ha, hb⟩
    rw [if_neg (not_lt.mpr ha), if_neg (not_lt.mpr hb)]
    exact ⟨rfl, rfl⟩

theorem rangeErrorsZ_eq_nil (name : String) (v lo hi : ℤ) :
    rangeErrorsZ name v lo hi = [] ↔ lo ≤ v ∧ v ≤ hi := by
  unfold rangeErrorsZ
  rw [List.append_eq_nil]
  constructor
  · rintro ⟨ha, hb⟩
    constructor
    · by_contra h
      rw [if_pos (lt_of_not_le h)] at ha
      exact List.cons_ne_nil _ _ ha
    · by_contra h
      rw [if_pos (lt_of_not_le h)] at hb
      exact List.cons_ne_nil _ _ hb
  · rintro ⟨ha, hb⟩
    rw [if_neg (not_lt.mpr ha), if_neg (not_lt.mpr hb)]
    exact ⟨rfl, rfl⟩

theorem requiredFieldErrors_eq_nil (r : PropRecord) :
    requiredFieldErrors r = [] ↔
      (strTruthy r.title = true ∧ strTruthy r.url = true ∧
       strTruthy r.city_name = true ∧ strTruthy r.timestamp = true) := by
  unfold requiredFieldErrors
  split_ifs <;> simp_all

theorem numericFieldErrors_eq_nil (r : PropRecord) :
    numericFieldErrors r = [] ↔
      ((∀ v : ℚ, r.price = some v → 50 ≤ v ∧ v ≤ 50000000) ∧
       (∀ v : Int, r.rooms = some v → 1 ≤ v ∧ v ≤ 20) ∧
       (∀ v : Int, r.bathrooms = some v → 1 ≤ v ∧ v ≤ 10) ∧
       (∀ v : Int, r.area_m2 = some v → 10 ≤ v ∧ v ≤ 2000)) := by
  unfold numericFieldErrors
  cases r.price <;> cases r.rooms <;> cases r.bathrooms <;> cases r.area_m2 <;>
    simp_all [rangeErrors_eq_nil, rangeErrorsZ_eq_nil]

theorem textFieldErrors_eq_nil (r : PropRecord) :
    textFieldErrors r = [] ↔
      ((∀ t, r.title = some t → t ≠ "" → 10 ≤ t.length ∧ t.length ≤ 200) ∧
       (∀ t, r.location = some t → t ≠ "" → 3 ≤ t.length ∧ t.length ≤ 100)) := by
  unfold textFieldErrors
  cases r.title <;> cases r.location <;> simp_all

/-! Helper lemmas about URL deduplication. -/

theorem mem_dropDupGo_not_seen :
    ∀ (rs : List PropRecord) (seen : List (Option String)) (r : PropRecord),
      r ∈ dropDupGo seen rs → r.url ∉ seen := by
  intro rs
  induction rs with
  | nil => intro seen r h; simp [dropDupGo] at h
  | cons a rest ih =>
      intro seen r h
      unfold dropDupGo at h
      split at h
      · exact ih seen r h
      · rcases List.mem_cons.mp h with rfl | h2
        · assumption
        · intro hmem
          exact ih _ r h2 (List.mem_cons_of_mem _ hmem)

theorem nodup_dropDupGo :
    ∀ (rs : List PropRecord) (seen : List (Option String)),
      ((dropDupGo seen rs).map (·.url)).Nodup := by
  intro rs
  induction rs with
  | nil => intro seen; simp [dropDupGo]
  | cons a rest ih =>
      intro seen
      unfold dropDupGo
      split
      · exact ih seen
      · simp only [List.map_cons, List.nodup_cons]
        refine ⟨?_, ih _⟩
        intro hmem
        rcases List.mem_map.mp hmem with ⟨r, hr, hurl⟩
        exact mem_dropDupGo_not_seen _ _ r hr (by rw [hurl]; exact List.mem_cons_self _ _)

theorem dropDupGo_eq_self :
    ∀ (rs : List PropRecord) (seen : List (Option String)),
      (∀ r ∈ rs, r.url ∉ seen) → ((rs.map (·.url)).Nodup) →
      dropDupGo seen rs = rs := by
  intro rs
  induction rs with
  | nil => intro seen _ _; rfl
  | cons a rest ih =>
      intro seen hseen hnodup
      unfold dropDupGo
      rw [if_neg (hseen a (List.mem_cons_self _ _))]
      congr 1
      apply ih
      · intro r hr
        simp only [List.mem_cons, not_or]
        refine ⟨?_, hseen r (List.mem_cons_of_mem _ hr)⟩
        intro heq
        have : a.url ∈ rest.map (·.url) := List.mem_map.mpr ⟨r, hr, heq⟩
        exact (List.nodup_cons.mp (by simpa using hnodup)).1 this
      · exact (List.nodup_cons.mp (by simpa using hnodup)).2

theorem nodup_urls_dropDuplicateUrls (rs : List PropRecord) :
    ((dropDuplicateUrls rs).map (·.url)).Nodup :=
  nodup_dropDupGo rs []

theorem dropDuplicateUrls_eq_self (rs : List PropRecord)
    (h : (rs.map (·.url)).Nodup) : dropDuplicateUrls rs = rs :=
  dropDupGo_eq_self rs [] (by simp) h

/-! Claim theorems. -/

/-- C1 (amended): the per-record validity predicate used by validate and
clean (validate_property) holds if and only if all four required fields
title, url, city_name, timestamp are truthy, every present numeric field is
inside its declared range, and present text fields meet their length bounds;
the title-or-location minimal-validity predicate is Property.is_valid, which
holds if and only if the identity fields are non-empty and at least one of
title and location is truthy. -/
theorem validatePredicate_characterization :
    (∀ r : PropRecord, validateProperty r = true ↔
      (strTruthy r.title = true ∧ strTruthy r.url = true ∧
       strTruthy r.city_name = true ∧ strTruthy r.timestamp = true ∧
       (∀ v : ℚ, r.price = some v → 50 ≤ v ∧ v ≤ 50000000) ∧
       (∀ v : Int, r.rooms = some v → 1 ≤ v ∧ v ≤ 20) ∧
       (∀ v : Int, r.bathrooms = some v → 1 ≤ v ∧ v ≤ 10) ∧
       (∀ v : Int, r.area_m2 = some v → 10 ≤ v ∧ v ≤ 2000) ∧
       (∀ t, r.title = some t → t ≠ "" → 10 ≤ t.length ∧ t.length ≤ 200) ∧
       (∀ t, r.location = some t → t ≠ "" → 3 ≤ t.length ∧ t.length ≤ 100))) ∧
    (∀ p : Property, p.isValid = true ↔
      (p.url ≠ "" ∧ p.city_name ≠ "" ∧ p.timestamp ≠ "" ∧
       (strTruthy p.title = true ∨ strTruthy p.location = true))) := by
  constructor
  · intro r
    unfold validateProperty validationErrors
    rw [List.isEmpty_iff, List.append_eq_nil, List.append_eq_nil,
        requiredFieldErrors_eq_nil, numericFieldErrors_eq_nil, textFieldErrors_eq_nil]
    tauto
  · intro p
    unfold Property.isValid
    simp only [Bool.and_eq_true, Bool.or_eq_true, decide_eq_true_eq, ne_eq]
    tauto

/-- Record with a location but no title: minimally valid per the claim and
per Property.is_valid, yet rejected by validate_property because title is in
the required_fields list of the validator. -/
def locationOnlyRecord : PropRecord :=
  { url := some "https://english.habitaclia.com/rent-flat-barcelona-i001.htm"
    city_name := some "Barcelona"
    timestamp := some "2024-05-01T10:00:00"
    location := some "Eixample, Barcelona" }

/-- C1 counterexample: a record whose identity fields are non-empty and that
has a location but no title satisfies the claim predicate but fails the
validity predicate actually used by validate and clean. -/
theorem validatePredicate_location_only_record :
    specMinimalValid locationOnlyRecord = true ∧
      validateProperty locationOnlyRecord = false := by decide

/-- Fully valid record used to witness the validator characterization. -/
def wellFormedRecord : PropRecord :=
  { url := some "https://english.habitaclia.com/rent-flat-barcelona-i002.htm"
    city_name := some "Barcelona"
    timestamp := some "2024-05-01T10:00:00"
    title := some "Bright flat near the beach"
    location := some "Barceloneta"
    price := some 1250
    rooms := some 3
    bathrooms := some 1
    area_m2 := some 80 }

/-- C1 witness: the characterization applied at a concrete record. -/
theorem validatePredicate_characterization_witness :
    validateProperty wellFormedRecord = true := by
  apply (validatePredicate_characterization.1 wellFormedRecord).mpr
  refine ⟨by decide, by decide, by decide, by decide, ?_, ?_, ?_, ?_, ?_, ?_⟩ <;>
    · intro v hv
      simp only [wellFormedRecord, Option.some.injEq] at hv
      subst hv
      first
        | exact ⟨by norm_num, by norm_num⟩
        | intro _; exact ⟨by decide, by decide⟩

/-- Shape of a generated search-URL list: first the unsuffixed URL, then one
URL per page number 2..n. -/
theorem searchUrls_shape (u0 pre : String) (n : Nat) (hn : 1 ≤ n) :
    (u0 :: (pageNumbers n).map (fun page => pre ++ toString page ++ ".htm")).length = n ∧
    ∀ k : Nat, 2 ≤ k → k ≤ n →
      (u0 :: (pageNumbers n).map (fun page => pre ++ toString page ++ ".htm"))[k-1]? =
        some (pre ++ toString k ++ ".htm") := by
  constructor
  · simp only [List.length_cons, List.length_map, pageNumbers, List.length_range]
    omega
  · intro k h2 hk
    have hidx : k - 1 = (k - 2) + 1 := by omega
    rw [hidx, List.getElem?_cons_succ, List.getElem?_map, pageNumbers,
        List.getElem?_map, List.getElem?_range (by omega : k - 2 < n - 1)]
    have harith : k - 2 + 2 = k := by omega
    simp [harith]

/-- C2 (amended): for every city and page count n with 1 <= n, the search-URL
generator returns exactly n URLs for both the rent and the homes property
types; the first URL carries no page suffix and the k-th URL, 2 <= k <= n, is
suffixed -k; the main.py variant generates exactly the same lists. The bound
1 <= n is necessary: with max_pages = 0 the generator still returns the one
unsuffixed URL. -/
theorem getSearchUrls_pagination :
    (∀ (city : String) (n : Nat), 1 ≤ n →
      (getSearchUrls city "rent" n).length = n ∧
      (getSearchUrls city "rent" n).head? = some (baseUrl ++ "/rent-" ++ city ++ ".htm") ∧
      ∀ k : Nat, 2 ≤ k → k ≤ n →
        (getSearchUrls city "rent" n)[k-1]? =
          some (baseUrl ++ "/rent-" ++ city ++ "-" ++ toString k ++ ".htm")) ∧
    (∀ (city : String) (n : Nat), 1 ≤ n →
      (getSearchUrls city "homes" n).length = n ∧
      (getSearchUrls city "homes" n).head? = some (baseUrl ++ "/homes-" ++ city ++ ".htm") ∧
      ∀ k : Nat, 2 ≤ k → k ≤ n →
        (getSearchUrls city "homes" n)[k-1]? =
          some (baseUrl ++ "/homes-" ++ city ++ "-" ++ toString k ++ ".htm")) ∧
    (∀ (city t : String) (n : Nat), getSearchUrlsImproved city t n = getSearchUrls city t n) := by
  refine ⟨?_, ?_, fun city t n => rfl⟩
  · intro city n hn
    have h := searchUrls_shape (baseUrl ++ "/rent-" ++ city ++ ".htm")
      (baseUrl ++ "/rent-" ++ city ++ "-") n hn
    have hrw : getSearchUrls city "rent" n =
        (baseUrl ++ "/rent-" ++ city ++ ".htm") ::
          (pageNumbers n).map
            (fun page => baseUrl ++ "/rent-" ++ city ++ "-" ++ toString page ++ ".htm") := by
      unfold getSearchUrls
      rw [if_pos rfl]
    rw [hrw]
    exact ⟨h.1, rfl, h.2⟩
  · intro city n hn
    have h := searchUrls_shape (baseUrl ++ "/homes-" ++ city ++ ".htm")
      (baseUrl ++ "/homes-" ++ city ++ "-") n hn
    have hrw : getSearchUrls city "homes" n =
        (baseUrl ++ "/homes-" ++ city ++ ".htm") ::
          (pageNumbers n).map
            (fun page => baseUrl ++ "/homes-" ++ city ++ "-" ++ toString page ++ ".htm") := by
      unfold getSearchUrls
      rw [if_neg (by decide), if_pos (Or.inl rfl)]
    rw [hrw]
    exact ⟨h.1, rfl, h.2⟩

/-- C2 counterexample: with page count 0 the generator does not return 0 URLs;
it still returns the single unsuffixed URL. -/
theorem getSearchUrls_zero_pages :
    getSearchUrls "barcelona" "rent" 0 =
      ["https://english.habitaclia.com/rent-barcelona.htm"] ∧
    ¬(getSearchUrls "barcelona" "rent" 0).length = 0 := by
  constructor
  · rfl
  · decide

/-- C2 witness: the pagination theorem applied at city barcelona with three
pages. -/
theorem getSearchUrls_pagination_witness :
    (getSearchUrls "barcelona" "rent" 3).length = 3 ∧
    (getSearchUrls "barcelona" "rent" 3)[2]? =
      some (baseUrl ++ "/rent-" ++ "barcelona" ++ "-" ++ toString 3 ++ ".htm") :=
  ⟨(getSearchUrls_pagination.1 "barcelona" 3 (by decide)).1,
   (getSearchUrls_pagination.1 "barcelona" 3 (by decide)).2.2 3 (by decide) (by decide)⟩

/-- C9 (confirmed): a property type other than rent, homes and buy produces
the empty URL list in both scraper variants; no URL is generated and no
error is raised (the functions are total). -/
theorem getSearchUrls_unknown_type_empty (city t : String) (n : Nat)
    (h1 : t ≠ "rent") (h2 : t ≠ "homes") (h3 : t ≠ "buy") :
    getSearchUrls city t n = [] ∧ getSearchUrlsImproved city t n = [] := by
  have hor : ¬(t = "homes" ∨ t = "buy") := by
    rintro (h | h)
    · exact h2 h
    · exact h3 h
  constructor
  · unfold getSearchUrls
    rw [if_neg h1, if_neg hor]
  · unfold getSearchUrlsImproved
    rw [if_neg h1, if_neg hor]

/-- C9 witness: the unknown-type theorem applied at the property type sale. -/
theorem getSearchUrls_unknown_type_empty_witness :
    getSearchUrls "barcelona" "sale" 3 = [] ∧
      getSearchUrlsImproved "barcelona" "sale" 3 = [] :=
  getSearchUrls_unknown_type_empty "barcelona" "sale" 3
    (by decide) (by decide) (by decide)

/-- C10 (amended): get_price_per_m2 returns the rounded price per square
meter exactly when price and area are present, the price is nonzero (Python
truthiness of a float) and the area is positive, and returns None otherwise;
the division is guarded so a zero or absent area is never divided by. -/
theorem getPricePerM2_guarded :
    ∀ p : Property, p.getPricePerM2 = specPricePerM2Amended p := by
  intro p
  obtain ⟨u, cc, cn, ts, ti, price, praw, lo, ro, ba, area, de, iu, ic, st⟩ := p
  unfold Property.getPricePerM2 specPricePerM2Amended
  cases price with
  | none => rfl
  | some pr =>
      cases area with
      | none => rfl
      | some a =>
          dsimp only
          by_cases h : pr ≠ 0 ∧ 0 < a
          · rw [if_pos ⟨h.1, h.2.ne', h.2⟩, if_pos h]
          · rw [if_neg (fun hc => h ⟨hc.1, hc.2.2⟩), if_neg h]

/-- Property with a present zero price and a positive area. -/
def zeroPriceProperty : Property :=
  { url := "https://english.habitaclia.com/rent-flat-barcelona-i003.htm"
    city_code := "barcelona"
    city_name := "Barcelona"
    timestamp := "2024-05-01T10:00:00"
    price := some 0
    area_m2 := some 50 }

/-- C10 counterexample: price and area are both present and the area is
positive, yet get_price_per_m2 returns None because a zero price is falsy in
Python; the claim as stated would return 0. -/
theorem getPricePerM2_zero_price :
    zeroPriceProperty.getPricePerM2 = none ∧
      specPricePerM2 zeroPriceProperty = some 0 := by
  constructor
  · rfl
  · show specPricePerM2 zeroPriceProperty = some 0
    unfold specPricePerM2 zeroPriceProperty
    norm_num [roundTo2, roundHalfEven]

/-- C5 (confirmed): clean is idempotent. Applying clean_dataset to its own
cleaned output returns the same record list, and the second report counts
zero duplicates removed and zero invalid records removed. -/
theorem cleanDataset_idempotent (rs : List PropRecord) :
    (cleanDataset (cleanDataset rs).1).1 = (cleanDataset rs).1 ∧
    (cleanDataset (cleanDataset rs).1).2.duplicates_removed = 0 ∧
    (cleanDataset (cleanDataset rs).1).2.invalid_removed = 0 := by
  have hc_def : (cleanDataset rs).1 =
      (dropDuplicateUrls rs).filter (fun r => validateProperty r) := rfl
  have hnodup : (((cleanDataset rs).1).map (·.url)).Nodup := by
    rw [hc_def]
    exact List.Nodup.sublist ((List.filter_sublist _).map _)
      (nodup_urls_dropDuplicateUrls rs)
  have hdedup : dropDuplicateUrls (cleanDataset rs).1 = (cleanDataset rs).1 :=
    dropDuplicateUrls_eq_self _ hnodup
  have hfilter : ((cleanDataset rs).1).filter (fun r => validateProperty r) =
      (cleanDataset rs).1 := by
    apply List.filter_eq_self.mpr
    intro a ha
    rw [hc_def] at ha
    exact (List.mem_filter.mp ha).2
  refine ⟨?_, ?_, ?_⟩
  · show (dropDuplicateUrls (cleanDataset rs).1).filter (fun r => validateProperty r) =
      (cleanDataset rs).1
    rw [hdedup, hfilter]
  · show ((cleanDataset rs).1).length - (dropDuplicateUrls (cleanDataset rs).1).length = 0
    rw [hdedup]
    exact Nat.sub_self _
  · show (dropDuplicateUrls (cleanDataset rs).1).length -
      ((dropDuplicateUrls (cleanDataset rs).1).filter (fun r => validateProperty r)).length = 0
    rw [hdedup, hfilter]
    exact Nat.sub_self _

/-!
A small backtracking regular-expression engine, used to embed the
re.search and re.findall calls of the extractors. Alternation prefers the
left branch; option and star are greedy, with backtracking, matching the
Python re engine on the patterns used here. Case-insensitive matching is
modelled with ASCII case folding, which covers the vocabulary of these
patterns. The fuel argument bounds the number of star unfoldings; every star
body in the embedded patterns consumes at least one character, so a fuel of
the input length plus two is always sufficient.
-/

/-- Regular-expression syntax: empty, single character class, sequencing,
alternation, greedy option and greedy star. -/
inductive RE where
  | eps : RE
  | cls : (Char → Bool) → RE
  | seq : RE → RE → RE
  | alt : RE → RE → RE
  | opt : RE → RE
  | star : RE → RE

/-- Backtracking matcher in continuation style: attempt to match re at the
head of s, and call k on every candidate remainder in preference order;
the first success of k is the result. The fuel decreases on every recursive
call so that the definition is structurally recursive and kernel-reducible;
callers pass enough fuel for the whole backtracking search. -/
def reMatch {α : Type} : Nat → RE → List Char → (List Char → Option α) → Option α
  | 0, _, _, _ => none
  | fuel + 1, re, s, k =>
      match re with
      | RE.eps => k s
      | RE.cls p =>
          match s with
          | [] => none
          | c :: rest => if p c then k rest else none
      | RE.seq a b => reMatch fuel a s (fun s2 => reMatch fuel b s2 k)
      | RE.alt a b =>
          match reMatch fuel a s k with
          | some r => some r
          | none => reMatch fuel b s k
      | RE.opt a =>
          match reMatch fuel a s k with
          | some r => some r
          | none => k s
      | RE.star a =>
          match reMatch fuel a s (fun s2 => reMatch fuel (RE.star a) s2 k) with
          | some r => some r
          | none => k s

/-- Structural size of a pattern, used to choose a sufficient fuel. -/
def reSize : RE → Nat
  | RE.eps => 1
  | RE.cls _ => 1
  | RE.seq a b => reSize a + reSize b + 1
  | RE.alt a b => reSize a + reSize b + 1
  | RE.opt a => reSize a + 1
  | RE.star a => reSize a + 1

/-- Match a captured pattern (prefix, group, suffix) at the start of s:
returns the characters consumed by the group and the remainder after the
whole match. The fuel bound covers the deepest possible backtracking search
because every star body of the embedded patterns consumes a character. -/
def matchCaptureAt (pre grp post : RE) (s : List Char) :
    Option (List Char × List Char) :=
  let fuel := (reSize pre + reSize grp + reSize post + 3) * (s.length + 3)
  reMatch fuel pre s (fun s1 =>
    reMatch fuel grp s1 (fun s2 =>
      reMatch fuel post s2 (fun s3 =>
        some (s1.take (s1.length - s2.length), s3))))

/-- Model of re.search with one capture group: scan start positions left to
right and return the group of the first position where the pattern matches. -/
def reSearchGo (pre grp post : RE) : Nat → List Char → Option (List Char)
  | 0, _ => none
  | fuel + 1, s =>
      match matchCaptureAt pre grp post s with
      | some (g, _) => some g
      | none =>
          match s with
          | [] => none
          | _ :: t => reSearchGo pre grp post fuel t

/-- First match of the pattern anywhere in s, as re.search. -/
def reSearch (pre grp post : RE) (s : List Char) : Option (List Char) :=
  reSearchGo pre grp post (s.length + 1) s

/-- Model of re.findall with one capture group: non-overlapping matches,
scanning left to right and resuming after each match. -/
def reFindAllGo (pre grp post : RE) : Nat → List Char → List (List Char)
  | 0, _ => []
  | fuel + 1, s =>
      match matchCaptureAt pre grp post s with
      | some (g, rest) =>
          if rest.length < s.length then g :: reFindAllGo pre grp post fuel rest
          else
            g :: (match s with
                  | [] => []
                  | _ :: t => reFindAllGo pre grp post fuel t)
      | none =>
          match s with
          | [] => []
          | _ :: t => reFindAllGo pre grp post fuel t

/-- All group captures of the pattern in s, as re.findall. -/
def reFindAll (pre grp post : RE) (s : List Char) : List (List Char) :=
  reFindAllGo pre grp post (s.length + 1) s

/-- The character class backslash-d. -/
def dCls : RE := RE.cls Char.isDigit

/-- The character class backslash-s. -/
def wsCls : RE := RE.cls Char.isWhitespace

/-- A literal character. -/
def lit (c : Char) : RE := RE.cls (fun x => x = c)

/-- A literal character, case-insensitive (re.IGNORECASE, ASCII folding). -/
def litCI (c : Char) : RE := RE.cls (fun x => x.toLower = c.toLower)

/-- A literal word, case-insensitive. -/
def strCI (s : String) : RE := s.data.foldr (fun c r => RE.seq (litCI c) r) RE.eps

/-- The Kleene closure of the whitespace class: the fragment backslash-s
followed by a star. -/
def wsStar : RE := RE.star wsCls

/-- The fragment matching one to three digits, greedy. -/
def digits13 : RE := RE.seq dCls (RE.opt (RE.seq dCls (RE.opt dCls)))

/-- The fragment matching zero or more dot-separated thousands groups. -/
def thousandsGroups : RE := RE.star (RE.seq (lit '.') (RE.seq dCls (RE.seq dCls dCls)))

/-- The fragment matching an optional comma and two decimal digits. -/
def decimalsGroup : RE := RE.opt (RE.seq (lit ',') (RE.seq dCls dCls))

/-- Capture group of the first, second and fourth price patterns: one to
three digits, optional thousands groups, optional decimals. -/
def priceNumber : RE := RE.seq digits13 (RE.seq thousandsGroups decimalsGroup)

/-- Capture group of the third price pattern: no decimal part. -/
def priceNumberNoDec : RE := RE.seq digits13 thousandsGroups

/-- The ordered price patterns of _extract_price (core.py lines 287-292),
each as a (prefix, group, suffix) triple: number before the euro sign,
number after the euro sign, number before the word euro, number after the
word Price and a colon. -/
def pricePatterns : List (RE × RE × RE) :=
  [(RE.eps, priceNumber, RE.seq wsStar (lit '€')),
   (RE.seq (lit '€') wsStar, priceNumber, RE.eps),
   (RE.eps, priceNumberNoDec, RE.seq wsStar (RE.seq (strCI "euro") (RE.opt (litCI 's')))),
   (RE.seq (strCI "Price") (RE.seq (lit ':') wsStar), priceNumber, RE.eps)]

/-- Model of match.replace applied twice (core.py line 300): remove the
thousands dots, then turn the decimal comma into a dot. -/
def cleanPriceChars (g : List Char) : List Char :=
  (g.filter (fun c => c ≠ '.')).map (fun c => if c = ',' then '.' else c)

/-- Numeric value of a digit string, as the Python int constructor. -/
def digitsToNat (ds : List Char) : Nat :=
  ds.foldl (fun a c => 10 * a + (c.toNat - 48)) 0

/-- Model of the Python float constructor on a cleaned numeric string:
digits with at most one decimal point and at least one digit; anything else
raises ValueError, modelled as none. The value is the exact rational with
the fractional digits over the matching power of ten. -/
def parseDecimal (cs : List Char) : Option ℚ :=
  let intPart := cs.takeWhile (fun c => c ≠ '.')
  let rest := cs.dropWhile (fun c => c ≠ '.')
  match rest with
  | [] =>
      if intPart ≠ [] ∧ intPart.all Char.isDigit then some (digitsToNat intPart)
      else none
  | _ :: frac =>
      if (intPart ≠ [] ∨ frac ≠ []) ∧ intPart.all Char.isDigit ∧ frac.all Char.isDigit then
        some (mkRat (digitsToNat (intPart ++ frac)) (10 ^ frac.length))
      else none

/-- The inner loop of _extract_price (core.py lines 296-309): walk the
matches of one pattern in order and return the first whose parsed value lies
in the accepted range, together with the raw matched text. -/
def firstValidPrice : List (List Char) → Option (ℚ × List Char)
  | [] => none
  | g :: rest =>
      match parseDecimal (cleanPriceChars g) with
      | some v => if 50 ≤ v ∧ v ≤ 50000000 then some (v, g) else firstValidPrice rest
      | none => firstValidPrice rest

/-- The outer loop of _extract_price: try the patterns in order, returning
the price and raw text of the first pattern that yields an accepted match. -/
def extractPriceGo (text : List Char) : List (RE × RE × RE) → Option (ℚ × String)
  | [] => none
  | (pre, grp, post) :: ps =>
      match firstValidPrice (reFindAll pre grp post text) with
      | some (v, g) => some (v, String.mk g ++ "€")
      | none => extractPriceGo text ps

/-- Embedding of HabitacliaMultiCityScraper._extract_price
(core.py lines 281-311): scan the full page text with the ordered price
patterns, parse with dot as thousands separator and comma as decimal
separator, and accept the first value inside [50, 50000000]. -/
def extractPrice (text : String) : Option (ℚ × String) :=
  extractPriceGo text.data pricePatterns

/-- The fragment matching one or more digits, greedy. -/
def digitsPlus : RE := RE.seq dCls (RE.star dCls)

/-- The Kleene closure of the class matching whitespace or a colon, the
fragment of the reversed main.py patterns. -/
def wsColonStar : RE := RE.star (RE.cls (fun c => c.isWhitespace || c = ':'))

/-- Word alternatives after the digits in the first rooms pattern of
_extract_specifications (core.py line 339). -/
def roomWords : RE :=
  RE.alt (RE.seq (strCI "room") (RE.opt (litCI 's')))
    (RE.alt (RE.seq (strCI "habitacione") (RE.opt (litCI 's')))
      (RE.alt (RE.seq (strCI "hab") (RE.opt (lit '.')))
        (RE.alt (RE.seq (strCI "dormitorio") (RE.opt (litCI 's')))
          (RE.seq (strCI "bedroom") (RE.opt (litCI 's'))))))

/-- The ordered rooms patterns of _extract_specifications
(core.py lines 338-343). -/
def roomPatterns : List (RE × RE × RE) :=
  [(RE.eps, digitsPlus, RE.seq wsStar roomWords),
   (RE.eps, digitsPlus, RE.seq wsStar (strCI "bed")),
   (RE.seq (strCI "Rooms") (RE.seq (lit ':') wsStar), digitsPlus, RE.eps),
   (RE.eps, digitsPlus, RE.seq wsStar (RE.alt (strCI "rm") (strCI "room")))]

/-- Word alternatives of the first bathrooms pattern (core.py line 358). -/
def bathWords : RE :=
  RE.alt (strCI "bath")
    (RE.alt (strCI "bathroom")
      (RE.alt (strCI "baño")
        (RE.alt (strCI "aseo")
          (RE.seq (strCI "bathroom") (RE.opt (litCI 's'))))))

/-- The ordered bathrooms patterns of _extract_specifications
(core.py lines 357-361). -/
def bathPatterns : List (RE × RE × RE) :=
  [(RE.eps, digitsPlus, RE.seq wsStar bathWords),
   (RE.eps, digitsPlus, RE.seq wsStar (RE.alt (strCI "wc") (strCI "toilet"))),
   (RE.seq (strCI "Bathroom") (RE.seq (RE.opt (litCI 's')) (RE.seq (lit ':') wsStar)),
    digitsPlus, RE.eps)]

/-- Word alternatives of the second area pattern (core.py line 377). -/
def squareMeterWords : RE :=
  RE.alt
    (RE.seq (strCI "square") (RE.seq wsStar (RE.seq (strCI "meter") (RE.opt (litCI 's')))))
    (RE.seq (strCI "metro")
      (RE.seq (RE.opt (litCI 's')) (RE.seq wsStar (RE.seq (strCI "cuadrado") (RE.opt (litCI 's'))))))

/-- The ordered area patterns of _extract_specifications
(core.py lines 375-381). -/
def areaPatterns : List (RE × RE × RE) :=
  [(RE.eps, digitsPlus,
    RE.seq wsStar (RE.seq (litCI 'm') (RE.cls (fun c => c = '²' || c = '2')))),
   (RE.eps, digitsPlus, RE.seq wsStar squareMeterWords),
   (RE.eps, digitsPlus, RE.seq wsStar (strCI "sqm")),
   (RE.seq (strCI "Area") (RE.seq (lit ':') wsStar), digitsPlus, RE.eps),
   (RE.seq (strCI "Size") (RE.seq (lit ':') wsStar), digitsPlus, RE.seq wsStar (litCI 'm'))]

/-- Word alternatives of the main.py rooms patterns (main.py line 359),
which lack the bedrooms alternative. -/
def roomWordsImproved : RE :=
  RE.alt (RE.seq (strCI "room") (RE.opt (litCI 's')))
    (RE.alt (RE.seq (strCI "habitacione") (RE.opt (litCI 's')))
      (RE.alt (RE.seq (strCI "hab") (RE.opt (lit '.')))
        (RE.seq (strCI "dormitorio") (RE.opt (litCI 's')))))

/-- The ordered rooms patterns of the main.py extractor
(main.py lines 358-362), including the reversed label-first form. -/
def roomPatternsImproved : List (RE × RE × RE) :=
  [(RE.eps, digitsPlus, RE.seq wsStar roomWordsImproved),
   (RE.seq roomWordsImproved wsColonStar, digitsPlus, RE.eps),
   (RE.eps, digitsPlus, RE.seq wsStar (strCI "bed"))]

/-- Word alternatives of the main.py bathrooms patterns (main.py line 377). -/
def bathWordsImproved : RE :=
  RE.alt (strCI "bath")
    (RE.alt (strCI "bathroom") (RE.alt (strCI "baño") (strCI "aseo")))

/-- The ordered bathrooms patterns of the main.py extractor
(main.py lines 376-379). -/
def bathPatternsImproved : List (RE × RE × RE) :=
  [(RE.eps, digitsPlus, RE.seq wsStar bathWordsImproved),
   (RE.seq bathWordsImproved (RE.seq (RE.opt (litCI 's')) wsColonStar), digitsPlus, RE.eps)]

/-- The ordered area patterns of the main.py extractor
(main.py lines 393-397). -/
def areaPatternsImproved : List (RE × RE × RE) :=
  [(RE.eps, digitsPlus,
    RE.seq wsStar (RE.seq (litCI 'm') (RE.cls (fun c => c = '²' || c = '2')))),
   (RE.eps, digitsPlus, RE.seq wsStar squareMeterWords),
   (RE.eps, digitsPlus, RE.seq wsStar (strCI "sqm"))]

/-- One field loop of _extract_specifications: try the patterns in order
with re.search; an out-of-range first match falls through to the next
pattern, and the first in-range match is returned
(core.py lines 345-354, 363-372, 383-392). -/
def firstAcceptedSpec (text : List Char) (lo hi : Nat) :
    List (RE × RE × RE) → Option Nat
  | [] => none
  | (pre, grp, post) :: ps =>
      match reSearch pre grp post text with
      | some g =>
          if lo ≤ digitsToNat g ∧ digitsToNat g ≤ hi then some (digitsToNat g)
          else firstAcceptedSpec text lo hi ps
      | none => firstAcceptedSpec text lo hi ps

/-- The first numeric match over a pattern list with no range gate; this is
the reading of the claim phrase "the first matching numeric value". Used
only to compare claim C4 against the extractor. -/
def firstNumericMatch (text : List Char) : List (RE × RE × RE) → Option Nat
  | [] => none
  | (pre, grp, post) :: ps =>
      match reSearch pre grp post text with
      | some g => some (digitsToNat g)
      | none => firstNumericMatch text ps

/-- The technical specification fields recovered from a property page. -/
structure Specs where
  rooms : Option Nat := none
  bathrooms : Option Nat := none
  area_m2 : Option Nat := none
deriving DecidableEq

/-- Embedding of HabitacliaMultiCityScraper._extract_specifications
(core.py lines 332-394): rooms accepted in [1, 20], bathrooms in [1, 10],
area in [20, 2000]. -/
def extractSpecifications (text : String) : Specs :=
  { rooms := firstAcceptedSpec text.data 1 20 roomPatterns
    bathrooms := firstAcceptedSpec text.data 1 10 bathPatterns
    area_m2 := firstAcceptedSpec text.data 20 2000 areaPatterns }

/-- Embedding of HabitacliaScraperImproved._extract_specifications
(main.py lines 350-410): rooms accepted in [1, 20], bathrooms in [1, 10],
area in [20, 1000]. -/
def extractSpecificationsImproved (text : String) : Specs :=
  { rooms := firstAcceptedSpec text.data 1 20 roomPatternsImproved
    bathrooms := firstAcceptedSpec text.data 1 10 bathPatternsImproved
    area_m2 := firstAcceptedSpec text.data 20 1000 areaPatternsImproved }

/-! Range soundness of the price and specification extractors. -/

theorem firstValidPrice_range (l : List (List Char)) (v : ℚ) (g : List Char)
    (h : firstValidPrice l = some (v, g)) : 50 ≤ v ∧ v ≤ 50000000 := by
  induction l with
  | nil => simp [firstValidPrice] at h
  | cons a rest ih =>
      unfold firstValidPrice at h
      cases hp : parseDecimal (cleanPriceChars a) with
      | none => rw [hp] at h; exact ih h
      | some w =>
          rw [hp] at h
          dsimp only at h
          by_cases hr : 50 ≤ w ∧ w ≤ 50000000
          · rw [if_pos hr] at h
            simp only [Option.some.injEq, Prod.mk.injEq] at h
            obtain ⟨rfl, rfl⟩ := h
            exact hr
          · rw [if_neg hr] at h
            exact ih h

theorem extractPriceGo_range (text : List Char) (ps : List (RE × RE × RE))
    (v : ℚ) (raw : String) (h : extractPriceGo text ps = some (v, raw)) :
    50 ≤ v ∧ v ≤ 50000000 := by
  induction ps with
  | nil => simp [extractPriceGo] at h
  | cons p rest ih =>
      obtain ⟨pre, grp, post⟩ := p
      unfold extractPriceGo at h
      cases hf : firstValidPrice (reFindAll pre grp post text) with
      | none => rw [hf] at h; exact ih h
      | some vg =>
          obtain ⟨w, g⟩ := vg
          rw [hf] at h
          dsimp only at h
          simp only [Option.some.injEq, Prod.mk.injEq] at h
          obtain ⟨hw, hraw⟩ := h
          subst hw
          exact firstValidPrice_range _ _ _ hf

theorem firstAcceptedSpec_range (text : List Char) (lo hi : Nat)
    (ps : List (RE × RE × RE)) (v : Nat)
    (h : firstAcceptedSpec text lo hi ps = some v) : lo ≤ v ∧ v ≤ hi := by
  induction ps with
  | nil => simp [firstAcceptedSpec] at h
  | cons p rest ih =>
      obtain ⟨pre, grp, post⟩ := p
      unfold firstAcceptedSpec at h
      cases hs : reSearch pre grp post text with
      | none => rw [hs] at h; exact ih h
      | some g =>
          rw [hs] at h
          dsimp only at h
          by_cases hr : lo ≤ digitsToNat g ∧ digitsToNat g ≤ hi
          · rw [if_pos hr] at h
            simp only [Option.some.injEq] at h
            exact h ▸ hr
          · rw [if_neg hr] at h
            exact ih h

theorem firstAcceptedSpec_head (text : List Char) (lo hi : Nat)
    (pre grp post : RE) (ps : List (RE × RE × RE)) (g : List Char)
    (hs : reSearch pre grp post text = some g)
    (hrange : lo ≤ digitsToNat g ∧ digitsToNat g ≤ hi) :
    firstAcceptedSpec text lo hi ((pre, grp, post) :: ps) = some (digitsToNat g) := by
  unfold firstAcceptedSpec
  rw [hs]
  dsimp only
  rw [if_pos hrange]

/-- C3 (confirmed): the price extractor parses euro amounts with a dot as
thousands separator and a comma as decimal separator and only accepts values
inside [50, 50000000]: every returned price lies in the range, the input
1.234,56 euro parses to 1234.56, the boundary 50 is accepted, and 49 and
50000001 are rejected. -/
theorem extractPrice_range_and_examples :
    (∀ (t : String) (v : ℚ) (raw : String),
        extractPrice t = some (v, raw) → 50 ≤ v ∧ v ≤ 50000000) ∧
    extractPrice "1.234,56€" = some (1234.56, "1.234,56€") ∧
    extractPrice "50€" = some (50, "50€") ∧
    extractPrice "49€" = none ∧
    extractPrice "50000001€" = none := by
  refine ⟨fun t v raw h => extractPriceGo_range t.data pricePatterns v raw h,
    ?_, by decide, by decide, by decide⟩
  have h : extractPrice "1.234,56€" = some (mkRat 123456 100, "1.234,56€") := by decide
  rw [h]
  norm_num [Rat.mkRat_eq_div]

/-- C3 witness: the range soundness applied to the parsed example. -/
theorem extractPrice_range_and_examples_witness :
    50 ≤ (1234.56 : ℚ) ∧ (1234.56 : ℚ) ≤ 50000000 :=
  extractPrice_range_and_examples.1 "1.234,56€" 1234.56 "1.234,56€"
    extractPrice_range_and_examples.2.1

/-- C4 (amended): the specification extractor only ever stores in-range
values: rooms in [1, 20] and bathrooms in [1, 10] in both scraper variants,
area_m2 in [20, 2000] in the core scraper and in [20, 1000] in the main.py
variant (not [10, 2000] as claimed); an out-of-range first match falls
through to the next pattern rather than being the final verdict, and when
the first pattern of a field yields an in-range first match that value is
stored. -/
theorem extractSpecifications_ranges :
    (∀ (t : String) (v : Nat), (extractSpecifications t).rooms = some v → 1 ≤ v ∧ v ≤ 20) ∧
    (∀ (t : String) (v : Nat), (extractSpecifications t).bathrooms = some v → 1 ≤ v ∧ v ≤ 10) ∧
    (∀ (t : String) (v : Nat), (extractSpecifications t).area_m2 = some v → 20 ≤ v ∧ v ≤ 2000) ∧
    (∀ (t : String) (v : Nat),
      (extractSpecificationsImproved t).rooms = some v → 1 ≤ v ∧ v ≤ 20) ∧
    (∀ (t : String) (v : Nat),
      (extractSpecificationsImproved t).bathrooms = some v → 1 ≤ v ∧ v ≤ 10) ∧
    (∀ (t : String) (v : Nat),
      (extractSpecificationsImproved t).area_m2 = some v → 20 ≤ v ∧ v ≤ 1000) ∧
    (∀ (t : String) (g : List Char),
      reSearch RE.eps digitsPlus
          (RE.seq wsStar (RE.seq (litCI 'm') (RE.cls (fun c => c = '²' || c = '2')))) t.data =
        some g →
      20 ≤ digitsToNat g → digitsToNat g ≤ 2000 →
      (extractSpecifications t).area_m2 = some (digitsToNat g)) := by
  refine ⟨fun t v h => firstAcceptedSpec_range _ _ _ _ _ h,
    fun t v h => firstAcceptedSpec_range _ _ _ _ _ h,
    fun t v h => firstAcceptedSpec_range _ _ _ _ _ h,
    fun t v h => firstAcceptedSpec_range _ _ _ _ _ h,
    fun t v h => firstAcceptedSpec_range _ _ _ _ _ h,
    fun t v h => firstAcceptedSpec_range _ _ _ _ _ h,
    fun t g hs hlo hhi => ?_⟩
  show firstAcceptedSpec t.data 20 2000 areaPatterns = some (digitsToNat g)
  exact firstAcceptedSpec_head t.data 20 2000 _ _ _ _ g hs ⟨hlo, hhi⟩

/-- C4 witness: the range theorem applied to a concrete page text where all
three fields extract. -/
theorem extractSpecifications_ranges_witness :
    (1 ≤ 2 ∧ 2 ≤ 20) ∧ (1 ≤ 1 ∧ 1 ≤ 10) ∧ (20 ≤ 50 ∧ 50 ≤ 2000) :=
  ⟨extractSpecifications_ranges.1 "2 rooms 1 bath 50 m2" 2 (by decide),
   extractSpecifications_ranges.2.1 "2 rooms 1 bath 50 m2" 1 (by decide),
   extractSpecifications_ranges.2.2.1 "2 rooms 1 bath 50 m2" 50 (by decide)⟩

/-- C4 counterexample: in the page text 15 m2 the first matching numeric
value is 15, inside the claimed range [10, 2000], yet the extractor stores
no area because its actual lower bound is 20. -/
theorem extractSpecifications_area_15 :
    firstNumericMatch ("15 m2").data areaPatterns = some 15 ∧
    (10 ≤ 15 ∧ 15 ≤ 2000) ∧
    (extractSpecifications "15 m2").area_m2 = none ∧
    (extractSpecificationsImproved "15 m2").area_m2 = none := by decide

/-!
Link discovery (claim C6). A search-results page is modelled by the lists of
href attributes that the three CSS selector strategies of
extract_property_links return, in strategy order; each anchor may lack an
href (None). HTML parsing itself is an external capability.
-/

/-- Whether the pattern list is an initial segment of the other list. -/
def leadsWith : List Char → List Char → Bool
  | [], _ => true
  | _ :: _, [] => false
  | a :: as, b :: bs => a = b && leadsWith as bs

/-- Whether the needle occurs contiguously anywhere in the hay, the Python
substring test. -/
def containsSub (needle : List Char) : List Char → Bool
  | [] => leadsWith needle []
  | c :: t => leadsWith needle (c :: t) || containsSub needle t

/-- Whether the string opens with a URI scheme: a letter followed by scheme
characters and a colon. -/
def schemeMark : List Char → Bool
  | [] => false
  | c :: rest =>
      if c = ':' then true
      else (c.isAlphanum || c = '+' || c = '-' || c = '.') && schemeMark rest

/-- Whether the string is an absolute URI reference. -/
def hasScheme : List Char → Bool
  | [] => false
  | c :: rest => c.isAlpha && schemeMark rest

/-- Model of urllib.parse.urljoin against the scraper base URL, whose path
is empty: an href that already has a scheme is returned unchanged, a
protocol-relative href receives the base scheme, an absolute path is
appended to the origin, and any other href is resolved as a child of the
root path. Dot-segment normalization is not modelled; it is unreachable for
the hrefs this site serves. -/
def urljoinBase (href : String) : String :=
  if hasScheme href.data then href
  else if leadsWith "//".data href.data then "https:" ++ href
  else if leadsWith "/".data href.data then baseUrl ++ href
  else baseUrl ++ "/" ++ href

/-- The href filter of extract_property_links (core.py line 202): the href
is truthy, mentions .htm and is not a flats-houses listing page. -/
def keepHref (h : String) : Bool :=
  h ≠ "" && containsSub ".htm".data h.data && !containsSub "flats-houses".data h.data

/-- The inner loop of extract_property_links over one selector result
(core.py lines 200-204): skip anchors without href, apply the filter,
resolve against the base URL. -/
def resolveLinks (hrefs : List (Option String)) : List String :=
  ((hrefs.filterMap id).filter keepHref).map urljoinBase

/-- The selector loop of extract_property_links (core.py lines 198-207):
links accumulate across the inner loop and the loop stops after the first
selector that leaves the accumulator non-empty. -/
def collectPropertyLinks (acc : List String) : List (List (Option String)) → List String
  | [] => acc
  | sel :: rest =>
      let acc2 := acc ++ resolveLinks sel
      if acc2.isEmpty then collectPropertyLinks acc2 rest else acc2

/-- Embedding of HabitacliaMultiCityScraper.extract_property_links
(core.py lines 164-216) from the parsed page onward: run the selector loop,
then deduplicate as list(set(...)). -/
def extractPropertyLinks (page : List (List (Option String))) : List String :=
  (collectPropertyLinks [] page).dedup

/-- First-success combinator written from the words of claim C6: the
filtered links of the first strategy whose filtered links are non-empty. -/
def firstNonemptyResolved : List (List (Option String)) → List String
  | [] => []
  | sel :: rest =>
      let links := resolveLinks sel
      if links.isEmpty then firstNonemptyResolved rest else links

/-- The href filter of the main.py variant (main.py line 140): truthy href
that mentions a detail-page marker or the city name, and mentions .htm. -/
def keepHrefImproved (h : String) : Bool :=
  h ≠ "" && (containsSub "-i".data h.data || containsSub "barcelona".data h.data) &&
    containsSub ".htm".data h.data

/-- The href resolution of the main.py variant (main.py lines 142-145): an
href opening with http is kept as is, anything else goes through urljoin. -/
def resolveImproved (h : String) : String :=
  if leadsWith "http".data h.data then h else urljoinBase h

/-- The selector loop of HabitacliaScraperImproved.extract_property_links
(main.py lines 134-147): the loop breaks at the first selector that yields
any anchors at all, even when every anchor is then filtered out. -/
def selectorLoopImproved : List (List (Option String)) → List String
  | [] => []
  | sel :: rest =>
      if sel.isEmpty then selectorLoopImproved rest
      else ((sel.filterMap id).filter keepHrefImproved).map resolveImproved

/-- Embedding of HabitacliaScraperImproved.extract_property_links
(main.py lines 112-168) from the parsed page onward: the selector loop,
then, when it produced nothing, a catch-all scan over every anchor href of
the page, then deduplication. -/
def extractPropertyLinksImproved (page : List (List (Option String)))
    (allAnchors : List String) : List String :=
  let links := selectorLoopImproved page
  let links2 :=
    if links.isEmpty then
      (allAnchors.filter (fun h =>
        h ≠ "" && containsSub "barcelona".data h.data &&
          (containsSub ".htm".data h.data || containsSub ".html".data h.data))).map urljoinBase
    else links
  links2.dedup

/-!
Embedding pipeline (claim C7). The embeddings API is an external capability
modelled as a function from the batch texts to either one vector per text or
a failure, the except branch of create_embeddings_batch
(embedding_generator.py lines 107-143).
-/

/-- The batch loop of process_properties_dataset (embedding_generator.py
lines 180-197): walk the texts in batches of size bs; a successful batch
contributes its vectors, a failed batch contributes one None per text. The
fuel equals the number of texts, which bounds the number of batches when
the batch size is positive. -/
def processBatchesGo (api : List String → Option (List (List ℚ))) (bs : Nat) :
    Nat → List String → List (Option (List ℚ))
  | 0, _ => []
  | _, [] => []
  | fuel + 1, ts =>
      (match api (ts.take bs) with
       | some vs => vs.map some
       | none => (ts.take bs).map (fun _ => none)) ++
      processBatchesGo api bs fuel (ts.drop bs)

/-- All embedding slots for the given texts, in input order. -/
def processBatches (api : List String → Option (List (List ℚ)))
    (bs : Nat) (texts : List String) : List (Option (List ℚ)) :=
  processBatchesGo api bs texts.length texts

/-- The batches texts[0:bs], texts[bs:2bs], ..., as the Python slices of the
loop header range(0, len(texts), batch_size). -/
def chunksGo (bs : Nat) : Nat → List String → List (List String)
  | 0, _ => []
  | _, [] => []
  | fuel + 1, ts => ts.take bs :: chunksGo bs fuel (ts.drop bs)

/-- The batch decomposition of a text list. -/
def chunks (bs : Nat) (l : List String) : List (List String) :=
  chunksGo bs l.length l

/-- One output row of the final DataFrame assembly (embedding_generator.py
lines 200-202): the composed text, its embedding slot and the derived
has_embedding flag. -/
structure EmbeddingRow where
  text : String
  embedding : Option (List ℚ)
  has_embedding : Bool
deriving DecidableEq

/-- Model of the DataFrame column assignments: pair each text with its
embedding slot and set has_embedding to notna of the slot. -/
def attachEmbeddings (texts : List String) (embs : List (Option (List ℚ))) :
    List EmbeddingRow :=
  texts.zipWith (fun t e => { text := t, embedding := e, has_embedding := e.isSome }) embs

/-!
Description extraction (claim C8). Texts are modelled as character lists;
the selector results are given in selector order.
-/

/-- Collapse every maximal whitespace run to one space, the Python
re.sub of a whitespace-run pattern with a single space
(core.py line 411). The flag records whether the previous character was
part of a whitespace run. -/
def collapseWsGo : Bool → List Char → List Char
  | _, [] => []
  | prevWs, c :: rest =>
      if c.isWhitespace then
        (if prevWs then [] else [' ']) ++ collapseWsGo true rest
      else c :: collapseWsGo false rest

/-- Embedding of HabitacliaMultiCityScraper._extract_description
(core.py lines 396-415): the first selector text that is truthy and longer
than 50 characters is whitespace-normalized and cut to its first 500
characters; no ellipsis marker is appended. -/
def extractDescription : List (List Char) → Option (List Char)
  | [] => none
  | t :: rest =>
      if t ≠ [] ∧ 50 < t.length then some ((collapseWsGo false t).take 500)
      else extractDescription rest

/-- Embedding of the description branch of prepare_property_text
(embedding_generator.py lines 96-100): a description longer than the
maximum is cut to the maximum and suffixed with a three-dot ellipsis. -/
def truncateForEmbedding (description : List Char) (maxLen : Nat) : List Char :=
  if maxLen < description.length then description.take maxLen ++ "...".data
  else description

/-! Lemmas for link discovery. -/

theorem string_data_append (a b : String) : (a ++ b).data = a.data ++ b.data := rfl

theorem schemeMark_append (l r : List Char) (h : schemeMark l = true) :
    schemeMark (l ++ r) = true := by
  induction l with
  | nil => simp [schemeMark] at h
  | cons c t ih =>
      rw [List.cons_append]
      unfold schemeMark at h ⊢
      by_cases hc : c = ':'
      · rw [if_pos hc]
      · rw [if_neg hc] at h ⊢
        simp only [Bool.and_eq_true] at h ⊢
        exact ⟨h.1, ih h.2⟩

theorem hasScheme_append (l r : List Char) (h : hasScheme l = true) :
    hasScheme (l ++ r) = true := by
  cases l with
  | nil => simp [hasScheme] at h
  | cons c t =>
      rw [List.cons_append]
      unfold hasScheme at h ⊢
      simp only [Bool.and_eq_true] at h ⊢
      exact ⟨h.1, schemeMark_append _ _ h.2⟩

theorem hasScheme_urljoinBase (href : String) :
    hasScheme (urljoinBase href).data = true := by
  unfold urljoinBase
  split_ifs with h1 h2 h3
  · exact h1
  · rw [string_data_append]
    exact hasScheme_append _ _ (by decide)
  · rw [string_data_append]
    exact hasScheme_append _ _ (by decide)
  · rw [string_data_append]
    exact hasScheme_append _ _ (by decide)

theorem collectPropertyLinks_eq_first :
    ∀ page : List (List (Option String)),
      collectPropertyLinks [] page = firstNonemptyResolved page := by
  intro page
  induction page with
  | nil => rfl
  | cons sel rest ih =>
      unfold collectPropertyLinks firstNonemptyResolved
      simp only [List.nil_append]
      by_cases he : (resolveLinks sel).isEmpty = true
      · rw [if_pos he, if_pos he, List.isEmpty_iff.mp he]
        exact ih
      · rw [if_neg he, if_neg he]

theorem mem_firstNonemptyResolved (page : List (List (Option String))) (u : String)
    (hu : u ∈ firstNonemptyResolved page) : ∃ h, u = urljoinBase h := by
  induction page with
  | nil => simp [firstNonemptyResolved] at hu
  | cons sel rest ih =>
      unfold firstNonemptyResolved at hu
      dsimp only at hu
      by_cases he : (resolveLinks sel).isEmpty = true
      · rw [if_pos he] at hu
        exact ih hu
      · rw [if_neg he] at hu
        unfold resolveLinks at hu
        rcases List.mem_map.mp hu with ⟨h, _, rfl⟩
        exact ⟨h, rfl⟩

/-- C6 (amended): the core link discovery stops at the first selector
strategy whose filtered links are non-empty (later strategies contribute
nothing), the returned list holds no duplicate URLs, and every returned URL
is the resolution of some discovered href against the configured base URL
and carries a URI scheme (is absolute). The main.py variant instead breaks
at the first strategy that yields any anchors, filtered or not, and then
falls back to a catch-all scan. -/
theorem extractPropertyLinks_spec :
    ∀ page : List (List (Option String)),
      extractPropertyLinks page = (firstNonemptyResolved page).dedup ∧
      (extractPropertyLinks page).Nodup ∧
      ∀ u ∈ extractPropertyLinks page,
        (∃ h, u = urljoinBase h) ∧ hasScheme u.data = true := by
  intro page
  have h1 : extractPropertyLinks page = (firstNonemptyResolved page).dedup := by
    unfold extractPropertyLinks
    rw [collectPropertyLinks_eq_first]
  refine ⟨h1, ?_, ?_⟩
  · rw [h1]
    exact List.nodup_dedup _
  · intro u hu
    rw [h1] at hu
    have hu2 := List.mem_dedup.mp hu
    obtain ⟨h, rfl⟩ := mem_firstNonemptyResolved page u hu2
    exact ⟨⟨h, rfl⟩, hasScheme_urljoinBase h⟩

/-- C6 counterexample: a page whose first strategy yields one anchor that
the filter rejects while the second strategy holds a link that passes the
filter; discovery as claimed would return the second strategy link, but the
main.py variant breaks at the first strategy and returns nothing. -/
theorem extractPropertyLinksImproved_stops_early :
    extractPropertyLinksImproved
        [[some "/static/info.htm"], [some "/rent-barcelona-i5.htm"]] [] = [] ∧
    keepHrefImproved "/rent-barcelona-i5.htm" = true ∧
    keepHrefImproved "/static/info.htm" = false := by decide

/-- C6 witness: the discovery theorem applied to a concrete page where only
the first strategy matches one relative href. -/
theorem extractPropertyLinks_spec_witness :
    (∃ h, "https://english.habitaclia.com/rent-flat-i100.htm" = urljoinBase h) ∧
    hasScheme ("https://english.habitaclia.com/rent-flat-i100.htm").data = true :=
  (extractPropertyLinks_spec [[some "rent-flat-i100.htm"], []]).2.2
    "https://english.habitaclia.com/rent-flat-i100.htm" (by decide)

/-! Lemmas for the embedding batch pipeline. -/

theorem processBatchesGo_eq_chunks (api : List String → Option (List (List ℚ)))
    (bs : Nat) (fuel : Nat) (ts : List String) :
    processBatchesGo api bs fuel ts =
      ((chunksGo bs fuel ts).map (fun b =>
        match api b with
        | some vs => vs.map some
        | none => b.map (fun _ => none))).flatten := by
  induction fuel generalizing ts with
  | zero => cases ts <;> rfl
  | succ n ih =>
      cases ts with
      | nil => rfl
      | cons t ts2 =>
          unfold processBatchesGo chunksGo
          rw [List.map_cons, List.flatten_cons, ih]

theorem processBatchesGo_length (api : List String → Option (List (List ℚ)))
    (bs : Nat) (hbs : 1 ≤ bs)
    (hapi : ∀ b vs, api b = some vs → vs.length = b.length) :
    ∀ (fuel : Nat) (ts : List String), ts.length ≤ fuel →
      (processBatchesGo api bs fuel ts).length = ts.length := by
  intro fuel
  induction fuel with
  | zero =>
      intro ts hts
      have : ts = [] := List.length_eq_zero.mp (Nat.le_zero.mp hts)
      subst this
      rfl
  | succ n ih =>
      intro ts hts
      cases ts with
      | nil => rfl
      | cons t ts2 =>
          unfold processBatchesGo
          rw [List.length_append]
          have hbatch : (match api ((t :: ts2).take bs) with
              | some vs => vs.map some
              | none => ((t :: ts2).take bs).map (fun _ => none)).length =
              ((t :: ts2).take bs).length := by
            cases ha : api ((t :: ts2).take bs) with
            | some vs => simp [hapi _ _ ha]
            | none => simp
          rw [hbatch, ih]
          · rw [List.length_take, List.length_drop]
            simp only [List.length_cons]
            omega
          · rw [List.length_drop]
            simp only [List.length_cons] at hts ⊢
            omega

theorem attachEmbeddings_flag (texts : List String) (embs : List (Option (List ℚ))) :
    ∀ row ∈ attachEmbeddings texts embs, row.has_embedding = row.embedding.isSome := by
  induction texts generalizing embs with
  | nil => intro row hr; simp [attachEmbeddings] at hr
  | cons t ts ih =>
      intro row hr
      cases embs with
      | nil => simp [attachEmbeddings] at hr
      | cons e es =>
          unfold attachEmbeddings at hr
          rw [List.zipWith_cons_cons] at hr
          rcases List.mem_cons.mp hr with rfl | hr2
          · rfl
          · exact ih es row hr2

/-- C7 (confirmed): with a positive batch size and an embeddings capability
that returns one vector per text on success, the pipeline emits exactly one
embedding slot per input text in order; the output is the concatenation of
the per-batch results where a failed batch contributes one null slot per
text of that batch and the remaining batches are still processed; the final
rows pair each text with its slot and has_embedding holds exactly for the
non-null slots. -/
theorem processBatches_null_fill (api : List String → Option (List (List ℚ)))
    (bs : Nat) (texts : List String) (hbs : 1 ≤ bs)
    (hapi : ∀ b vs, api b = some vs → vs.length = b.length) :
    (processBatches api bs texts).length = texts.length ∧
    processBatches api bs texts =
      ((chunks bs texts).map (fun b =>
        match api b with
        | some vs => vs.map some
        | none => b.map (fun _ => none))).flatten ∧
    (attachEmbeddings texts (processBatches api bs texts)).length = texts.length ∧
    ∀ row ∈ attachEmbeddings texts (processBatches api bs texts),
      row.has_embedding = row.embedding.isSome := by
  have hlen : (processBatches api bs texts).length = texts.length :=
    processBatchesGo_length api bs hbs hapi texts.length texts le_rfl
  refine ⟨hlen, processBatchesGo_eq_chunks api bs texts.length texts, ?_, ?_⟩
  · unfold attachEmbeddings
    rw [List.length_zipWith, hlen, Nat.min_self]
  · exact attachEmbeddings_flag texts (processBatches api bs texts)

/-- Concrete embeddings capability for the C7 witness: fails on the batch
containing the first two texts, succeeds elsewhere with one unit vector per
text. -/
def demoApi : List String → Option (List (List ℚ)) :=
  fun b => if b = ["a", "b"] then none else some (b.map (fun _ => [1]))

theorem demoApi_length : ∀ b vs, demoApi b = some vs → vs.length = b.length := by
  intro b vs h
  unfold demoApi at h
  split at h
  · exact absurd h (by simp)
  · simp only [Option.some.injEq] at h
    subst h
    simp

/-- C7 witness: the batch theorem applied to three texts with batch size
two, where the first batch fails: three slots come back, the failed batch
yields two nulls and the last batch is still processed. -/
theorem processBatches_null_fill_witness :
    (processBatches demoApi 2 ["a", "b", "c"]).length = 3 ∧
    (attachEmbeddings ["a", "b", "c"] (processBatches demoApi 2 ["a", "b", "c"])).length = 3 ∧
    processBatches demoApi 2 ["a", "b", "c"] = [none, none, some [1]] :=
  ⟨(processBatches_null_fill demoApi 2 ["a", "b", "c"] (by decide) demoApi_length).1,
   (processBatches_null_fill demoApi 2 ["a", "b", "c"] (by decide) demoApi_length).2.2.1,
   by decide⟩

/-! Lemmas for description extraction. -/

theorem extractDescription_length (texts : List (List Char)) (d : List Char)
    (h : extractDescription texts = some d) : d.length ≤ 500 := by
  induction texts with
  | nil => simp [extractDescription] at h
  | cons t rest ih =>
      unfold extractDescription at h
      by_cases hc : t ≠ [] ∧ 50 < t.length
      · rw [if_pos hc] at h
        simp only [Option.some.injEq] at h
        subst h
        simp [List.length_take]
      · rw [if_neg hc] at h
        exact ih h

theorem extractDescription_short_none (texts : List (List Char))
    (h : ∀ t ∈ texts, t.length ≤ 50) : extractDescription texts = none := by
  induction texts with
  | nil => rfl
  | cons t rest ih =>
      unfold extractDescription
      rw [if_neg (fun hc => absurd hc.2 (not_lt.mpr (h t (List.mem_cons_self _ _))))]
      exact ih (fun t2 ht2 => h t2 (List.mem_cons_of_mem _ ht2))

theorem extractDescription_from_source (texts : List (List Char)) (d : List Char)
    (h : extractDescription texts = some d) :
    ∃ t ∈ texts, 50 < t.length ∧ d = (collapseWsGo false t).take 500 := by
  induction texts with
  | nil => simp [extractDescription] at h
  | cons t rest ih =>
      unfold extractDescription at h
      by_cases hc : t ≠ [] ∧ 50 < t.length
      · rw [if_pos hc] at h
        simp only [Option.some.injEq] at h
        exact ⟨t, List.mem_cons_self _ _, hc.2, h.symm⟩
      · rw [if_neg hc] at h
        obtain ⟨t2, ht2, h50, heq⟩ := ih h
        exact ⟨t2, List.mem_cons_of_mem _ ht2, h50, heq⟩

theorem truncateForEmbedding_long (d : List Char) (h : 500 < d.length) :
    truncateForEmbedding d 500 = d.take 500 ++ "...".data := by
  unfold truncateForEmbedding
  rw [if_pos h]

/-- C8 (amended): the extracted description is whitespace-normalized and
truncated to at most 500 characters, selector texts of 50 characters or
fewer are skipped, and the extractor appends no ellipsis marker; the
three-dot marker is added later by prepare_property_text when its own
500-character truncation applies. -/
theorem extractDescription_truncation :
    (∀ (texts : List (List Char)) (d : List Char),
        extractDescription texts = some d → d.length ≤ 500) ∧
    (∀ texts : List (List Char), (∀ t ∈ texts, t.length ≤ 50) →
        extractDescription texts = none) ∧
    (∀ (texts : List (List Char)) (d : List Char), extractDescription texts = some d →
        ∃ t ∈ texts, 50 < t.length ∧ d = (collapseWsGo false t).take 500) ∧
    (∀ d : List Char, 500 < d.length →
        truncateForEmbedding d 500 = d.take 500 ++ "...".data) :=
  ⟨extractDescription_length, extractDescription_short_none,
   extractDescription_from_source, truncateForEmbedding_long⟩

/-- C8 witness: the truncation theorem applied to a 60-character text and to
a 501-character description. -/
theorem extractDescription_truncation_witness :
    (List.replicate 60 'a').length ≤ 500 ∧
    truncateForEmbedding (List.replicate 501 'x') 500 =
      (List.replicate 501 'x').take 500 ++ "...".data :=
  ⟨extractDescription_truncation.1 [List.replicate 60 'a'] (List.replicate 60 'a')
      (by decide),
   extractDescription_truncation.2.2.2 (List.replicate 501 'x')
      (by rw [List.length_replicate]; norm_num)⟩

theorem collapseWsGo_replicate_x (n : Nat) :
    collapseWsGo false (List.replicate n 'x') = List.replicate n 'x' := by
  induction n with
  | zero => rfl
  | succ m ih =>
      rw [List.replicate_succ]
      unfold collapseWsGo
      rw [if_neg (by decide), ih]

/-- C8 counterexample: a 501-character matched text is stored as its first
500 characters with no ellipsis marker appended — the result contains no
dot at all, although the claim says a truncated description carries one. -/
theorem extractDescription_no_ellipsis :
    extractDescription [List.replicate 501 'x'] = some (List.replicate 500 'x') ∧
    500 < (List.replicate 501 'x').length ∧
    ∀ c ∈ List.replicate 500 'x', c ≠ '.' := by
  refine ⟨?_, by rw [List.length_replicate]; norm_num, ?_⟩
  · unfold extractDescription
    have hne : List.replicate 501 'x' ≠ [] := by
      intro h
      have hlen := congrArg List.length h
      rw [List.length_replicate] at hlen
      simp at hlen
    rw [if_pos ⟨hne, by rw [List.length_replicate]; norm_num⟩,
        collapseWsGo_replicate_x, List.take_replicate]
    norm_num
  · intro c hc
    rw [List.eq_of_mem_replicate hc]
    decide

end Habitaclia
